import Mathlib

/-!
Verification of the Smart-Youtube backend core against its specification.

The development shallowly embeds the relevant Python functions:

* `backend/main.py` — `VideoRequest.extract_video_id` (regex-based
  identifier extraction);
* `backend/services/ai_service.py` — `AIService.generate_analysis`
  (markdown-fence stripping, JSON parsing, structure validation, fallback)
  and `AIService._format_timestamp`;
* `backend/services/translation_service.py` — the `LANGUAGES` table,
  `TranslationService.validate_language`, `translate_batch` and
  `translate_transcript` (batching and failure pass-through);
* `backend/services/transcript_service.py` — `TranscriptService.get_transcript`,
  `_transcribe_with_whisper` and `_download_audio` (two-tier acquisition
  with scratch-file cleanup).

External capabilities (the Google translate client, the Gemini client, the
yt-dlp downloader, the Whisper model) are modelled as oracle parameters;
exceptions are modelled with `Except`/`Option`; the scratch file system is a
list of existing paths threaded through the functions that touch it.

Strings are handled as `List Char` so that the Python string operations
(strip, startswith, endswith, slicing, regex search) can be reasoned about
by structural induction.
-/

namespace SmartYT

/-! ## Python string primitives -/

/-- Whitespace as recognised by the Python `str.strip` method (ASCII range). -/
def isPySpace (c : Char) : Bool :=
  [' ', '\t', '\n', '\r', '\x0b', '\x0c'].contains c

/-- Python `str.strip()` on a character list: remove leading and trailing
whitespace. -/
def pyStrip (l : List Char) : List Char :=
  (((l.dropWhile isPySpace).reverse).dropWhile isPySpace).reverse

/-- Python `str.startswith(pat)` : `pat` is an initial run of the string. -/
def chStarts : List Char → List Char → Bool
  | [], _ => true
  | _ :: _, [] => false
  | p :: ps, c :: cs => p == c && chStarts ps cs

/-- Python `str.endswith(pat)` : `pat` is a final run of the string. -/
def chEnds (pat l : List Char) : Bool :=
  chStarts pat.reverse l.reverse

/-- Python `s[:-n]` for a nonempty tail: keep all but the last `n`
characters. -/
def pyDropLast (n : Nat) (l : List Char) : List Char :=
  l.take (l.length - n)

/-! ## Identifier extraction (`backend/main.py`, `VideoRequest.extract_video_id`)

The validator applies, in order, the regular expressions

* `(?:youtube\.com\/watch\?v=|youtu\.be\/)([a-zA-Z0-9_-]{11})` via `re.search`
* `^([a-zA-Z0-9_-]{11})$`

and raises `ValueError` when neither matches.  `re.search` scans positions
left to right and at each position tries the alternatives left to right;
the capture group is the run of exactly 11 identifier characters after the
matched literal.  In the second pattern the caret matches only the start of
the input (no MULTILINE flag), and the Python dollar anchor matches at the
end of the input or just before one newline that ends it, so an
11-character token followed by a single trailing newline is accepted
too. -/

/-- The character class `[a-zA-Z0-9_-]`. -/
def idChar (c : Char) : Bool :=
  (('a' ≤ c && c ≤ 'z') || ('A' ≤ c && c ≤ 'Z') || ('0' ≤ c && c ≤ '9')
    || c == '_' || c == '-')

/-- The literal `youtube.com/watch?v=` of the first regex alternative. -/
def watchLit : List Char :=
  ['y','o','u','t','u','b','e','.','c','o','m','/','w','a','t','c','h','?','v','=']

/-- The literal `youtu.be/` of the second regex alternative. -/
def shortLit : List Char :=
  ['y','o','u','t','u','.','b','e','/']

/-- Match a literal at the head of the input; return the remainder. -/
def matchLit : List Char → List Char → Option (List Char)
  | [], s => some s
  | _ :: _, [] => none
  | p :: ps, c :: cs => if c == p then matchLit ps cs else none

/-- Take exactly `n` characters of the class `[a-zA-Z0-9_-]`; return them and
the remainder.  This is the `{11}` quantifier on the capture group. -/
def takeIdChars : Nat → List Char → Option (List Char × List Char)
  | 0, s => some ([], s)
  | _ + 1, [] => none
  | n + 1, c :: cs =>
    if idChar c then (takeIdChars n cs).map (fun p => (c :: p.1, p.2))
    else none

/-- Attempt the URL regex at one position: the `watch?v=` alternative first,
then the `youtu.be/` alternative; on success return the captured group. -/
def tryAt (s : List Char) : Option (List Char) :=
  match matchLit watchLit s with
  | some rest =>
    match takeIdChars 11 rest with
    | some p => some p.1
    | none =>
      match matchLit shortLit s with
      | some rest2 => (takeIdChars 11 rest2).map Prod.fst
      | none => none
  | none =>
    match matchLit shortLit s with
    | some rest2 => (takeIdChars 11 rest2).map Prod.fst
    | none => none

/-- The `re.search` scan: leftmost position wins. -/
def reSearch : List Char → Option (List Char)
  | [] => none
  | c :: cs =>
    match tryAt (c :: cs) with
    | some g => some g
    | none => reSearch cs

/-- The anchored bare-token regex: the caret pins the match to the start,
the capture is the run of exactly 11 identifier characters, and the dollar
anchor accepts the end of the input or a single newline that ends it. -/
def bareTokenMatch (s : List Char) : Option (List Char) :=
  match takeIdChars 11 s with
  | none => none
  | some (g, rest) => if rest.isEmpty || rest == ['\n'] then some g else none

/-- `VideoRequest.extract_video_id`: URL regex first, then the bare
11-character token regex; `none` models the raised `ValueError`. -/
def extract_video_id (s : List Char) : Option (List Char) :=
  match reSearch s with
  | some g => some g
  | none => bareTokenMatch s

/-- An input matches an accepted pattern when the URL regex finds a match or
the anchored bare-token regex does. -/
def acceptedPattern (s : List Char) : Prop :=
  (reSearch s).isSome ∨ (bareTokenMatch s).isSome

instance : DecidablePred acceptedPattern := by
  intro s
  unfold acceptedPattern
  infer_instance

/-- The scheme-and-host part of a full watch URL before `youtube.com`. -/
def watchPre : List Char := ['h','t','t','p','s',':','/','/','w','w','w','.']

/-- The scheme part of a short URL before `youtu.be`. -/
def httpsPre : List Char := ['h','t','t','p','s',':','/','/']

/-! ## Timestamp formatting (`backend/services/ai_service.py`,
`AIService._format_timestamp`)

The Python function truncates the incoming float to an integer; the claims
concern non-negative inputs, so the embedding takes the truncated value as a
natural number. -/

/-- Python `f"{n:02d}"` for the minute and second fields. -/
def fmtTwo (n : Nat) : String :=
  if n < 10 then "0" ++ toString n else toString n

/-- `AIService._format_timestamp` on the truncated number of seconds. -/
def format_timestamp (seconds : Nat) : String :=
  let hours := seconds / 3600
  let minutes := (seconds % 3600) / 60
  let secs := seconds % 60
  if hours > 0 then
    toString hours ++ ":" ++ fmtTwo minutes ++ ":" ++ fmtTwo secs
  else
    toString minutes ++ ":" ++ fmtTwo secs

/-- Modelled from the spec: the timestamp formatting rule of section 4.4,
stated with its own arithmetic, to be compared with the source embedding. -/
def specTimestamp (s : Nat) : String :=
  if s / 3600 > 0 then
    toString (s / 3600) ++ ":" ++ fmtTwo ((s % 3600) / 60) ++ ":" ++ fmtTwo (s % 60)
  else
    toString ((s % 3600) / 60) ++ ":" ++ fmtTwo (s % 60)

/-! ## Translation (`backend/services/translation_service.py`)

The external googletrans client is modelled by two oracle parameters:
`tr lang text` is the translation the service would produce for `text`
towards `lang`, and `ok n` tells whether the n-th bulk-translate call of the
session raises.  The pacing sleeps and the client recreation are invisible
to the data flow and are not modelled. -/

/-- The module-level `LANGUAGES` table, verbatim. -/
def LANGUAGES : List (String × String) :=
  [("af", "afrikaans"), ("sq", "albanian"), ("am", "amharic"), ("ar", "arabic"),
   ("hy", "armenian"), ("az", "azerbaijani"), ("eu", "basque"), ("be", "belarusian"),
   ("bn", "bengali"), ("bs", "bosnian"), ("bg", "bulgarian"), ("ca", "catalan"),
   ("ceb", "cebuano"), ("ny", "chichewa"), ("zh-cn", "chinese (simplified)"),
   ("zh-tw", "chinese (traditional)"), ("co", "corsican"), ("hr", "croatian"),
   ("cs", "czech"), ("da", "danish"), ("nl", "dutch"), ("en", "english"),
   ("eo", "esperanto"), ("et", "estonian"), ("tl", "filipino"), ("fi", "finnish"),
   ("fr", "french"), ("fy", "frisian"), ("gl", "galician"), ("ka", "georgian"),
   ("de", "german"), ("el", "greek"), ("gu", "gujarati"), ("ht", "haitian creole"),
   ("ha", "hausa"), ("haw", "hawaiian"), ("iw", "hebrew"), ("he", "hebrew"),
   ("hi", "hindi"), ("hmn", "hmong"), ("hu", "hungarian"), ("is", "icelandic"),
   ("ig", "igbo"), ("id", "indonesian"), ("ga", "irish"), ("it", "italian"),
   ("ja", "japanese"), ("jw", "javanese"), ("kn", "kannada"), ("kk", "kazakh"),
   ("km", "khmer"), ("ko", "korean"), ("ku", "kurdish (kurmanji)"), ("ky", "kyrgyz"),
   ("lo", "lao"), ("la", "latin"), ("lv", "latvian"), ("lt", "lithuanian"),
   ("lb", "luxembourgish"), ("mk", "macedonian"), ("mg", "malagasy"), ("ms", "malay"),
   ("ml", "malayalam"), ("mt", "maltese"), ("mi", "maori"), ("mr", "marathi"),
   ("mn", "mongolian"), ("my", "myanmar (burmese)"), ("ne", "nepali"),
   ("no", "norwegian"), ("or", "odia"), ("ps", "pashto"), ("fa", "persian"),
   ("pl", "polish"), ("pt", "portuguese"), ("pa", "punjabi"), ("ro", "romanian"),
   ("ru", "russian"), ("sm", "samoan"), ("gd", "scots gaelic"), ("sr", "serbian"),
   ("st", "sesotho"), ("sn", "shona"), ("sd", "sindhi"), ("si", "sinhala"),
   ("sk", "slovak"), ("sl", "slovenian"), ("so", "somali"), ("es", "spanish"),
   ("su", "sundanese"), ("sw", "swahili"), ("sv", "swedish"), ("tg", "tajik"),
   ("ta", "tamil"), ("te", "telugu"), ("th", "thai"), ("tr", "turkish"),
   ("uk", "ukrainian"), ("ur", "urdu"), ("ug", "uyghur"), ("uz", "uzbek"),
   ("vi", "vietnamese"), ("cy", "welsh"), ("xh", "xhosa"), ("yi", "yiddish"),
   ("yo", "yoruba"), ("zu", "zulu")]

/-- Python `str.lower()` restricted to the ASCII range, character by
character. -/
def pyLower (s : String) : String := ⟨s.data.map Char.toLower⟩

/-- `TranslationService.validate_language`: membership of the lowercased
code among the table keys. -/
def validate_language (lang_code : String) : Bool :=
  LANGUAGES.any (fun p => p.1 == pyLower lang_code)

/-- A transcript segment as the translation endpoint receives it: `text`,
`start`, `duration` and an optional `original` key from an earlier
translation pass.  Times are modelled as rationals. -/
structure TSeg where
  text : String
  start : Rat
  duration : Rat
  original : Option String
deriving DecidableEq

/-- A translated segment as `translate_transcript` emits it: the `original`
key is always present. -/
structure TOut where
  text : String
  start : Rat
  duration : Rat
  original : String
deriving DecidableEq

/-- `TranslationService.translate_batch`: empty input short-circuits to
`[]`; otherwise one bulk call is made — the k-th of the session — and on
failure the input texts are returned unchanged (the except branch). -/
def translate_batch (ok : Nat → Bool) (tr : String → String → String)
    (lang : String) (k : Nat) (texts : List String) : List String :=
  if texts.isEmpty then []
  else if ok k then texts.map (tr lang) else texts

/-- How `translate_transcript` rebuilds one output segment from the
translated text and the input segment (the dict built in the inner loop):
`original` keeps an existing `original` and otherwise takes the incoming
text. -/
def rebuildSeg (t : String) (s : TSeg) : TOut :=
  ⟨t, s.start, s.duration, s.original.getD s.text⟩

/-- The batching loop of `TranslationService.translate_transcript`: slices
of `batch_size = 15`, one `translate_batch` call per slice, results
appended in order.  `k` numbers the bulk calls. -/
def translateGo (ok : Nat → Bool) (tr : String → String → String)
    (lang : String) : Nat → List TSeg → List TOut
  | _, [] => []
  | k, x :: xs =>
    List.zipWith rebuildSeg
        (translate_batch ok tr lang k (((x :: xs).take 15).map TSeg.text))
        ((x :: xs).take 15)
      ++ translateGo ok tr lang (k + 1) ((x :: xs).drop 15)
termination_by _ l => l.length
decreasing_by simp [List.length_drop]; omega

/-- `TranslationService.translate_transcript`. -/
def translate_transcript (ok : Nat → Bool) (tr : String → String → String)
    (lang : String) (transcript : List TSeg) : List TOut :=
  translateGo ok tr lang 0 transcript

/-- The expected output segment for position `i`: translated text when the
covering bulk call succeeds, the input text otherwise. -/
def mkOut (tr : String → String → String) (lang : String) (okb : Bool)
    (s : TSeg) : TOut :=
  ⟨if okb then tr lang s.text else s.text, s.start, s.duration,
   s.original.getD s.text⟩

/-- Modelled from the claim and spec section 4.3 for comparison: a batch
whose call fails is retried up to 3 attempts in total, backing off between
attempts, and only after the third failure does the batch degrade to
pass-through.  Backoff and client recreation have no data-flow effect and
are omitted; `k` numbers the bulk calls, so a batch consumes up to three
call outcomes. -/
def specRetryBatch (ok : Nat → Bool) (tr : String → String → String)
    (lang : String) (k : Nat) (texts : List String) : List String × Nat :=
  if texts.isEmpty then ([], k)
  else if ok k then (texts.map (tr lang), k + 1)
  else if ok (k + 1) then (texts.map (tr lang), k + 2)
  else if ok (k + 2) then (texts.map (tr lang), k + 3)
  else (texts, k + 3)

/-- Modelled from the claim: the batching loop with per-batch retry. -/
def specRetryGo (ok : Nat → Bool) (tr : String → String → String)
    (lang : String) : Nat → List TSeg → List TOut
  | _, [] => []
  | k, x :: xs =>
    List.zipWith rebuildSeg
        (specRetryBatch ok tr lang k (((x :: xs).take 15).map TSeg.text)).1
        ((x :: xs).take 15)
      ++ specRetryGo ok tr lang
          (specRetryBatch ok tr lang k (((x :: xs).take 15).map TSeg.text)).2
          ((x :: xs).drop 15)
termination_by _ l => l.length
decreasing_by simp [List.length_drop]; omega

/-- Modelled from the claim: `translate_transcript` as the claim describes
it, with the retrying batch call. -/
def specRetryTranslate (ok : Nat → Bool) (tr : String → String → String)
    (lang : String) (transcript : List TSeg) : List TOut :=
  specRetryGo ok tr lang 0 transcript

/-! ## Structured analysis (`backend/services/ai_service.py`,
`AIService.generate_analysis`)

The generative capability is opaque: `generate_analysis` is embedded as a
function of the response text it returns.  The embedding covers the
post-processing of lines 129-159: strip, markdown-fence removal, JSON
parsing (a model of the Python `json.loads`, values as a small JSON type
with numbers kept as lexemes), the `chapters`/`key_notes` membership check
with its Python `in` semantics, the fixed fallback payload on parse
failure, and the re-raised errors otherwise. -/

/-- Parsed JSON values; number literals are kept as their lexemes. -/
inductive Json where
  | null
  | bool (b : Bool)
  | num (lexeme : String)
  | str (s : String)
  | arr (elems : List Json)
  | obj (members : List (String × Json))

mutual

/-- Structural equality of JSON values, modelling Python equality of the
parsed objects. -/
def Json.beq : Json → Json → Bool
  | .null, .null => true
  | .bool a, .bool b => a == b
  | .num a, .num b => a == b
  | .str a, .str b => a == b
  | .arr xs, .arr ys => Json.beqList xs ys
  | .obj xs, .obj ys => Json.beqMembers xs ys
  | _, _ => false

def Json.beqList : List Json → List Json → Bool
  | [], [] => true
  | x :: xs, y :: ys => Json.beq x y && Json.beqList xs ys
  | _, _ => false

def Json.beqMembers : List (String × Json) → List (String × Json) → Bool
  | [], [] => true
  | (k1, v1) :: xs, (k2, v2) :: ys => k1 == k2 && Json.beq v1 v2 && Json.beqMembers xs ys
  | _, _ => false

end

instance : BEq Json := ⟨Json.beq⟩

/-- JSON insignificant whitespace. -/
def jsonWs (c : Char) : Bool :=
  [' ', '\t', '\n', '\r'].contains c

def skipWs (l : List Char) : List Char := l.dropWhile jsonWs

/-- Single-character escapes of JSON strings; backspace and form feed are
given by code point. -/
def escChar : Char → Option Char
  | '"' => some '"'
  | '\\' => some '\\'
  | '/' => some '/'
  | 'b' => some (Char.ofNat 8)
  | 'f' => some (Char.ofNat 12)
  | 'n' => some '\n'
  | 'r' => some '\r'
  | 't' => some '\t'
  | _ => none

/-- The value of one hexadecimal digit, by ASCII code: 48-57 are the
decimal digits, 97-102 and 65-70 the two letter ranges. -/
def hexVal (c : Char) : Option Nat :=
  let n := c.toNat
  if 48 ≤ n && n ≤ 57 then some (n - 48)
  else if 97 ≤ n && n ≤ 102 then some (n - 87)
  else if 65 ≤ n && n ≤ 70 then some (n - 55)
  else none

/-- Body of a JSON string after the opening quote: plain characters,
escapes and `\uXXXX` (surrogate pairs are not combined); raw control
characters are rejected, as in the strict mode of the Python parser. -/
def parseJString : List Char → List Char → Option (String × List Char)
  | _, [] => none
  | acc, c :: cs =>
    if c == '"' then some (String.mk acc.reverse, cs)
    else if c == '\\' then
      match cs with
      | [] => none
      | e :: cs2 =>
        if e == 'u' then
          match cs2 with
          | h1 :: h2 :: h3 :: h4 :: cs3 =>
            match hexVal h1, hexVal h2, hexVal h3, hexVal h4 with
            | some a, some b, some c4, some d =>
              parseJString (Char.ofNat (((a * 16 + b) * 16 + c4) * 16 + d) :: acc) cs3
            | _, _, _, _ => none
          | _ => none
        else
          match escChar e with
          | some ec => parseJString (ec :: acc) cs2
          | none => none
    else if c.toNat < 32 then none
    else parseJString (c :: acc) cs

/-- Integer part of a JSON number: `0` or a nonzero digit run. -/
def parseIntDigits : List Char → Option (List Char × List Char)
  | [] => none
  | c :: cs =>
    if c == '0' then some ([c], cs)
    else if c.isDigit then
      some (c :: cs.takeWhile Char.isDigit, cs.dropWhile Char.isDigit)
    else none

/-- Fraction part `.digits`, consumed only when wellformed. -/
def parseFracPart (l : List Char) : List Char × List Char :=
  match l with
  | '.' :: cs =>
    match cs.takeWhile Char.isDigit with
    | [] => ([], l)
    | ds => ('.' :: ds, cs.dropWhile Char.isDigit)
  | _ => ([], l)

/-- Exponent part `(e|E)(+|-)?digits`, consumed only when wellformed. -/
def parseExpPart (l : List Char) : List Char × List Char :=
  match l with
  | e :: cs =>
    if e == 'e' || e == 'E' then
      match cs with
      | s :: cs2 =>
        if s == '+' || s == '-' then
          match cs2.takeWhile Char.isDigit with
          | [] => ([], l)
          | ds => (e :: s :: ds, cs2.dropWhile Char.isDigit)
        else
          match cs.takeWhile Char.isDigit with
          | [] => ([], l)
          | ds => (e :: ds, cs.dropWhile Char.isDigit)
      | [] => ([], l)
    else ([], l)
  | [] => ([], l)

def parseNum (l : List Char) : Option (Json × List Char) :=
  let (neg, l1) := match l with
    | '-' :: cs => (['-'], cs)
    | _ => (([] : List Char), l)
  match parseIntDigits l1 with
  | none => none
  | some (ip, l2) =>
    let (fp, l3) := parseFracPart l2
    let (ep, l4) := parseExpPart l3
    some (.num (String.mk (neg ++ ip ++ fp ++ ep)), l4)

mutual

/-- Recursive-descent JSON value; the fuel only bounds nesting and loop
depth and is chosen generously at the top level. -/
def parseVal : Nat → List Char → Option (Json × List Char)
  | 0, _ => none
  | fuel + 1, l =>
    match skipWs l with
    | 'n' :: 'u' :: 'l' :: 'l' :: rest => some (.null, rest)
    | 't' :: 'r' :: 'u' :: 'e' :: rest => some (.bool true, rest)
    | 'f' :: 'a' :: 'l' :: 's' :: 'e' :: rest => some (.bool false, rest)
    | '"' :: rest => (parseJString [] rest).map (fun p => (.str p.1, p.2))
    | '[' :: rest => parseArrBody fuel rest
    | '{' :: rest => parseObjBody fuel rest
    | l2 => parseNum l2

def parseArrBody : Nat → List Char → Option (Json × List Char)
  | 0, _ => none
  | fuel + 1, l =>
    match skipWs l with
    | ']' :: rest => some (.arr [], rest)
    | l2 => parseArrElems fuel l2 []

def parseArrElems : Nat → List Char → List Json → Option (Json × List Char)
  | 0, _, _ => none
  | fuel + 1, l, acc =>
    match parseVal fuel l with
    | none => none
    | some (v, rest) =>
      match skipWs rest with
      | ',' :: rest2 => parseArrElems fuel rest2 (v :: acc)
      | ']' :: rest2 => some (.arr (v :: acc).reverse, rest2)
      | _ => none

def parseObjBody : Nat → List Char → Option (Json × List Char)
  | 0, _ => none
  | fuel + 1, l =>
    match skipWs l with
    | '}' :: rest => some (.obj [], rest)
    | l2 => parseObjMembers fuel l2 []

def parseObjMembers : Nat → List Char → List (String × Json) → Option (Json × List Char)
  | 0, _, _ => none
  | fuel + 1, l, acc =>
    match skipWs l with
    | '"' :: rest =>
      match parseJString [] rest with
      | none => none
      | some (key, rest2) =>
        match skipWs rest2 with
        | ':' :: rest3 =>
          match parseVal fuel rest3 with
          | none => none
          | some (v, rest4) =>
            match skipWs rest4 with
            | ',' :: rest5 => parseObjMembers fuel rest5 ((key, v) :: acc)
            | '}' :: rest5 => some (.obj ((key, v) :: acc).reverse, rest5)
            | _ => none
        | _ => none
    | _ => none

end

/-- The Python `json.loads`: one value, then only whitespace may remain. -/
def loads (l : List Char) : Option Json :=
  match parseVal (3 * l.length + 3) l with
  | none => none
  | some (j, rest) => if (skipWs rest).isEmpty then some j else none

/-- Python substring containment, for `in` on strings. -/
def strContains : List Char → List Char → Bool
  | needle, [] => needle.isEmpty
  | needle, c :: t => chStarts needle (c :: t) || strContains needle t

/-- The three-backtick fence delimiter. -/
def fence3 : List Char := ['`','`','`']

/-- The json-tagged opening fence, 7 characters. -/
def jsonFence : List Char := ['`','`','`','j','s','o','n']

/-- The Python `in` operator as applied to the parsed value: key membership
for a dict, element membership for a list, substring for a string, and a
`TypeError` otherwise. -/
def pyIn (k : String) (j : Json) : Except String Bool :=
  match j with
  | .obj kvs => .ok (kvs.any (fun p => p.1 == k))
  | .arr xs => .ok (xs.any (fun x => x == Json.str k))
  | .str s => .ok (strContains k.data s.data)
  | _ => .error "TypeError: argument of type is not iterable"

/-- Lines 129-139: strip the response, drop a leading json-tagged fence (7
characters), then a leading bare fence, then a trailing fence, and strip
again before parsing. -/
def cleanResponse (t : List Char) : List Char :=
  let s0 := pyStrip t
  let s1 := if chStarts jsonFence s0 then s0.drop 7 else s0
  let s2 := if chStarts fence3 s1 then s1.drop 3 else s1
  let s3 := if chEnds fence3 s2 then pyDropLast 3 s2 else s2
  pyStrip s3

/-- The fixed fallback payload returned on JSON parse failure. -/
def fallbackAnalysis : Json :=
  .obj [("chapters", .arr [.obj [("timestamp", .str "0:00"), ("title", .str "Full Video")]]),
        ("key_notes", .arr [.obj [("time", .str "0:00"), ("note", .str "Analysis unavailable")]])]

/-- `AIService.generate_analysis` as a function of the response text: clean,
parse, on `json.JSONDecodeError` return the fallback, then require both keys
or raise `ValueError` (re-raised by the generic handler); a `TypeError` from
the membership test also propagates. -/
def generate_analysis (response_text : List Char) : Except String Json :=
  match loads (cleanResponse response_text) with
  | none => .ok fallbackAnalysis
  | some analysis =>
    match pyIn "chapters" analysis with
    | .error e => .error e
    | .ok c1 =>
      if !c1 then .error "Invalid analysis structure"
      else
        match pyIn "key_notes" analysis with
        | .error e => .error e
        | .ok c2 =>
          if !c2 then .error "Invalid analysis structure"
          else .ok analysis

/-- A payload wrapped in a json-tagged fence with newlines, as the claim
describes. -/
def wrapJson (P : List Char) : List Char :=
  '`' :: '`' :: '`' :: 'j' :: 's' :: 'o' :: 'n' :: '\n' :: (P ++ ['\n', '`', '`', '`'])

/-! ## Transcript acquisition (`backend/services/transcript_service.py`)

The scratch file system is a list of existing paths.  Three oracles stand
for the external capabilities: `official` is the outcome of
`_fetch_youtube_transcript` (its multi-signature probing of the transcript
library is opaque to the claims — it either returns normalized segments or
raises), `dl` is the `yt_dlp` download call (it may mutate the file system
and may raise), and `trans` is the outcome of loading the Whisper model and
transcribing (either raises or returns segments with `start` and `end`).
The Python `end` key is named `endTime` since `end` is reserved. -/

/-- Python `str.strip` on a string value. -/
def pyStripStr (s : String) : String := ⟨pyStrip s.data⟩

/-- A normalized transcript segment of the acquisition service. -/
structure Seg where
  text : String
  start : Rat
  duration : Rat
deriving DecidableEq

/-- A segment as returned by the Whisper transcription. -/
structure WSeg where
  text : String
  start : Rat
  endTime : Rat
deriving DecidableEq

/-- The result dict of `get_transcript`: the error key is present exactly
on the failure path. -/
structure AcquisitionResult where
  transcript : List Seg
  source : String
  success : Bool
  error : Option String
deriving DecidableEq

/-- The scratch path `os.path.join(temp_dir, f"(video_id).mp3")` with the
default `TEMP_DIR`. -/
def audioPath (video_id : String) : String :=
  "./temp_audio/" ++ video_id ++ ".mp3"

/-- `TranscriptService._download_audio`: run the downloader, then require
the output file to exist, else raise `FileNotFoundError`. -/
def downloadAudio (dl : List String → (Except String Unit) × List String)
    (video_id : String) (fs : List String) : (Except String String) × List String :=
  match dl fs with
  | (.error e, fs1) => (.error e, fs1)
  | (.ok _, fs1) =>
    if fs1.contains (audioPath video_id) then (.ok (audioPath video_id), fs1)
    else (.error ("Audio file not found after download: " ++ audioPath video_id), fs1)

/-- `TranscriptService._transcribe_with_whisper`: download (outside the
try block — a download failure propagates with no cleanup to do), then
transcribe inside try/finally with the scratch file removed on both exits;
output segments are normalized to text/start/duration with `duration =
end - start` and the text stripped. -/
def transcribeWithWhisper (dl : List String → (Except String Unit) × List String)
    (trans : Except String (List WSeg)) (video_id : String) (fs : List String) :
    (Except String (List Seg)) × List String :=
  match downloadAudio dl video_id fs with
  | (.error e, fs1) => (.error e, fs1)
  | (.ok path, fs1) =>
    let result : Except String (List Seg) :=
      match trans with
      | .error e => .error e
      | .ok wsegs =>
        .ok (wsegs.map (fun w => ⟨pyStripStr w.text, w.start, w.endTime - w.start⟩))
    let fs2 := if fs1.contains path then fs1.filter (fun q => q != path) else fs1
    (result, fs2)

/-- `TranscriptService.get_transcript`: official path first; on any
exception fall back to Whisper once; on a second failure return the error
result rather than raising. -/
def get_transcript (official : Except String (List Seg))
    (dl : List String → (Except String Unit) × List String)
    (trans : Except String (List WSeg)) (video_id : String) (fs : List String) :
    AcquisitionResult × List String :=
  match official with
  | .ok t => (⟨t, "youtube_api", true, none⟩, fs)
  | .error _ =>
    match transcribeWithWhisper dl trans video_id fs with
    | (.ok t, fs2) => (⟨t, "whisper", true, none⟩, fs2)
    | (.error e, fs2) => (⟨[], "error", false, some e⟩, fs2)

/-! ### Lemmas about the regex embedding -/

theorem matchLit_eq_some_iff {p s r : List Char} :
    matchLit p s = some r ↔ s = p ++ r := by
  induction p generalizing s with
  | nil => simp [matchLit]
  | cons x xs ih =>
    cases s with
    | nil => simp [matchLit]
    | cons c cs =>
      by_cases h : c = x
      · subst h; simp [matchLit, ih]
      · simp [matchLit, h]

theorem takeIdChars_append {t r : List Char} (h : ∀ c ∈ t, idChar c = true) :
    takeIdChars t.length (t ++ r) = some (t, r) := by
  induction t with
  | nil => simp [takeIdChars]
  | cons c cs ih =>
    have hc : idChar c = true := h c (List.mem_cons_self c cs)
    have hcs : ∀ x ∈ cs, idChar x = true := fun x hx => h x (List.mem_cons_of_mem c hx)
    simp [takeIdChars, hc, ih hcs]

theorem tryAt_none_of_head_ne {c : Char} (h : ¬ c = 'y') (s : List Char) :
    tryAt (c :: s) = none := by
  have h1 : matchLit watchLit (c :: s) = none := by
    simp [watchLit, matchLit, h]
  have h2 : matchLit shortLit (c :: s) = none := by
    simp [shortLit, matchLit, h]
  simp [tryAt, h1, h2]

theorem dotMem_watchLit : '.' ∈ watchLit := by decide

theorem dotMem_shortLit : '.' ∈ shortLit := by decide

/-- On a string made purely of identifier characters the URL regex cannot
match anywhere: both literals contain a dot, which is not an identifier
character. -/
theorem tryAt_none_of_all_idChar {s : List Char} (h : ∀ c ∈ s, idChar c = true) :
    tryAt s = none := by
  have hw : matchLit watchLit s = none := by
    cases hm : matchLit watchLit s with
    | none => rfl
    | some r =>
      have hs : s = watchLit ++ r := matchLit_eq_some_iff.mp hm
      have : idChar '.' = true := h '.' (hs ▸ List.mem_append_left r dotMem_watchLit)
      simp [idChar] at this
  have hsh : matchLit shortLit s = none := by
    cases hm : matchLit shortLit s with
    | none => rfl
    | some r =>
      have hs : s = shortLit ++ r := matchLit_eq_some_iff.mp hm
      have : idChar '.' = true := h '.' (hs ▸ List.mem_append_left r dotMem_shortLit)
      simp [idChar] at this
  simp [tryAt, hw, hsh]

theorem reSearch_none_of_all_idChar {s : List Char} (h : ∀ c ∈ s, idChar c = true) :
    reSearch s = none := by
  induction s with
  | nil => rfl
  | cons c cs ih =>
    have hcs : ∀ x ∈ cs, idChar x = true := fun x hx => h x (List.mem_cons_of_mem c hx)
    simp [reSearch, tryAt_none_of_all_idChar h, ih hcs]

/-- A prefix without the letter y cannot host a match start, so the scan
passes over it. -/
theorem reSearch_append_no_y {pre : List Char} (h : ∀ c ∈ pre, ¬ c = 'y')
    (s : List Char) : reSearch (pre ++ s) = reSearch s := by
  induction pre with
  | nil => rfl
  | cons c cs ih =>
    have hc : ¬ c = 'y' := h c (List.mem_cons_self c cs)
    have hcs : ∀ x ∈ cs, ¬ x = 'y' := fun x hx => h x (List.mem_cons_of_mem c hx)
    simp [reSearch, tryAt_none_of_head_ne hc, ih hcs]

theorem matchLit_self_append (p r : List Char) : matchLit p (p ++ r) = some r :=
  matchLit_eq_some_iff.mpr rfl

/-- At the start of the `watch?v=` literal followed by at least 11
identifier characters, the regex matches and captures the first 11. -/
theorem tryAt_watch {t r : List Char} (hlen : 11 ≤ t.length)
    (hid : ∀ c ∈ t, idChar c = true) :
    tryAt (watchLit ++ (t ++ r)) = some (t.take 11) := by
  have hsplit : t ++ r = t.take 11 ++ (t.drop 11 ++ r) := by
    rw [← List.append_assoc, List.take_append_drop]
  have htk : (t.take 11).length = 11 := by
    simp [List.length_take, Nat.min_eq_left hlen]
  have hid' : ∀ c ∈ t.take 11, idChar c = true :=
    fun c hc => hid c (List.mem_of_mem_take hc)
  have h11 : takeIdChars 11 (t ++ r) = some (t.take 11, t.drop 11 ++ r) := by
    have haux := takeIdChars_append (r := t.drop 11 ++ r) hid'
    rw [htk] at haux
    rw [hsplit]; exact haux
  simp [tryAt, matchLit_self_append, h11]

/-- Same for the `youtu.be/` literal; the `watch?v=` alternative fails on
its sixth character. -/
theorem tryAt_short {t r : List Char} (hlen : 11 ≤ t.length)
    (hid : ∀ c ∈ t, idChar c = true) :
    tryAt (shortLit ++ (t ++ r)) = some (t.take 11) := by
  have hsplit : t ++ r = t.take 11 ++ (t.drop 11 ++ r) := by
    rw [← List.append_assoc, List.take_append_drop]
  have htk : (t.take 11).length = 11 := by
    simp [List.length_take, Nat.min_eq_left hlen]
  have hid' : ∀ c ∈ t.take 11, idChar c = true :=
    fun c hc => hid c (List.mem_of_mem_take hc)
  have h11 : takeIdChars 11 (t ++ r) = some (t.take 11, t.drop 11 ++ r) := by
    have haux := takeIdChars_append (r := t.drop 11 ++ r) hid'
    rw [htk] at haux
    rw [hsplit]; exact haux
  have hw : matchLit watchLit (shortLit ++ (t ++ r)) = none := by
    simp [watchLit, shortLit, matchLit]
  simp [tryAt, hw, matchLit_self_append, h11]

theorem reSearch_watch {t r : List Char} (hlen : 11 ≤ t.length)
    (hid : ∀ c ∈ t, idChar c = true) :
    reSearch (watchLit ++ (t ++ r)) = some (t.take 11) := by
  have : watchLit ++ (t ++ r) =
      'y' :: (['o','u','t','u','b','e','.','c','o','m','/','w','a','t','c','h','?','v','='] ++ (t ++ r)) := by
    simp [watchLit]
  rw [this, reSearch, ← this, tryAt_watch hlen hid]

theorem reSearch_short {t r : List Char} (hlen : 11 ≤ t.length)
    (hid : ∀ c ∈ t, idChar c = true) :
    reSearch (shortLit ++ (t ++ r)) = some (t.take 11) := by
  have : shortLit ++ (t ++ r) =
      'y' :: (['o','u','t','u','.','b','e','/'] ++ (t ++ r)) := by
    simp [shortLit]
  rw [this, reSearch, ← this, tryAt_short hlen hid]

theorem reSearch_append_isSome {s : List Char} (h : (reSearch s).isSome)
    (p : List Char) : (reSearch (p ++ s)).isSome := by
  induction p with
  | nil => exact h
  | cons c cs ih =>
    rw [List.cons_append, reSearch]
    cases htry : tryAt (c :: (cs ++ s)) with
    | some g => simp
    | none => simpa using ih

/-! ### Lemmas about the translation embedding -/

theorem translate_batch_length (ok : Nat → Bool) (tr : String → String → String)
    (lang : String) (k : Nat) (texts : List String) :
    (translate_batch ok tr lang k texts).length = texts.length := by
  cases texts with
  | nil => simp [translate_batch]
  | cons a as => by_cases hok : ok k <;> simp [translate_batch, hok]

theorem translateGo_length (ok : Nat → Bool) (tr : String → String → String)
    (lang : String) : ∀ (l : List TSeg) (k : Nat),
    (translateGo ok tr lang k l).length = l.length
  | [], _ => by simp [translateGo]
  | x :: xs, k => by
    rw [translateGo]
    have ih := translateGo_length ok tr lang (xs.drop 14) (k + 1)
    simp [List.length_append, List.length_zipWith, translate_batch_length, ih]
    omega
termination_by l _ => l.length
decreasing_by simp [List.length_drop]; omega

/-- The output segment at position i is fully determined by the input
segment there and the outcome of the bulk call covering batch `i / 15`. -/
theorem translateGo_getElem (ok : Nat → Bool) (tr : String → String → String)
    (lang : String) : ∀ (l : List TSeg) (k i : Nat), i < l.length →
      (translateGo ok tr lang k l)[i]? =
        (l[i]?).map (mkOut tr lang (ok (k + i / 15)))
  | [], _, i, hi => by simp at hi
  | x :: xs, k, i, hi => by
    rw [translateGo]
    by_cases h15 : i < 15
    · have hib : i < ((x :: xs).take 15).length := by
        rw [List.length_take]
        exact lt_min h15 hi
      have hs : (x :: xs)[i]? = some ((x :: xs).get ⟨i, hi⟩) := by
        simp [List.getElem?_eq_getElem hi]
      have hbatch : ((x :: xs).take 15)[i]? = some ((x :: xs).get ⟨i, hi⟩) := by
        rw [List.getElem?_take]
        simp [h15, hs]
      have hts : (((x :: xs).take 15).map TSeg.text)[i]?
          = some ((x :: xs).get ⟨i, hi⟩).text := by
        rw [List.getElem?_map, hbatch]; rfl
      have hne : (((x :: xs).take 15).map TSeg.text).isEmpty = false := by
        simp [List.take_succ_cons]
      have httexts : (translate_batch ok tr lang k (((x :: xs).take 15).map TSeg.text))[i]?
          = some (if ok k then tr lang ((x :: xs).get ⟨i, hi⟩).text
                  else ((x :: xs).get ⟨i, hi⟩).text) := by
        rw [translate_batch, if_neg (by simp [hne])]
        by_cases hok : ok k
        · rw [if_pos hok, List.getElem?_map, hts]
          simp [hok]
        · rw [if_neg hok, hts]
          simp [hok]
      have hlt_zip : i < (List.zipWith rebuildSeg
          (translate_batch ok tr lang k (((x :: xs).take 15).map TSeg.text))
          ((x :: xs).take 15)).length := by
        rw [List.length_zipWith, translate_batch_length, List.length_map,
          Nat.min_self]
        exact hib
      rw [List.getElem?_append_left hlt_zip, List.getElem?_zipWith', httexts,
        hbatch, hs]
      have hdiv : i / 15 = 0 := Nat.div_eq_of_lt h15
      by_cases hok : ok k <;>
        simp [hdiv, hok, mkOut, rebuildSeg]
    · have hzlen : (List.zipWith rebuildSeg
          (translate_batch ok tr lang k (((x :: xs).take 15).map TSeg.text))
          ((x :: xs).take 15)).length = 15 := by
        rw [List.length_zipWith, translate_batch_length, List.length_map,
          Nat.min_self, List.length_take]
        simp at hi ⊢
        omega
      rw [List.getElem?_append_right (by rw [hzlen]; omega), hzlen]
      have hdrop14 : i - 15 < (xs.drop 14).length := by simp at hi ⊢; omega
      have ih := translateGo_getElem ok tr lang (xs.drop 14) (k + 1) (i - 15)
        hdrop14
      rw [show ((x :: xs).drop 15) = xs.drop 14 from rfl, ih]
      obtain ⟨j, rfl⟩ : ∃ j, i = j + 1 := ⟨i - 1, by omega⟩
      have hidx : (xs.drop 14)[j + 1 - 15]? = (x :: xs)[j + 1]? := by
        rw [List.getElem?_drop, List.getElem?_cons_succ]
        congr 1
        omega
      have harith : (k + 1) + (j + 1 - 15) / 15 = k + (j + 1) / 15 := by
        have h3 : j + 1 = (j + 1 - 15) + 15 := by omega
        have h4 : (j + 1) / 15 = (j + 1 - 15) / 15 + 1 := by
          conv_lhs => rw [h3]
          rw [Nat.add_div_right _ (by norm_num)]
        omega
      rw [hidx, harith]
termination_by l _ _ _ => l.length
decreasing_by simp [List.length_drop]; omega

/-- The language check is exactly key membership in the table after
lowercasing. -/
theorem validate_language_iff (c : String) :
    validate_language c = true ↔ pyLower c ∈ LANGUAGES.map Prod.fst := by
  simp [validate_language, List.any_eq_true, List.mem_map, beq_iff_eq]

/-! ### Lemmas about fence stripping -/

theorem chStarts_append (p l : List Char) : chStarts p (p ++ l) = true := by
  induction p with
  | nil => rfl
  | cons c cs ih => simp [chStarts, ih]

theorem chStarts_of_append {p q l : List Char} (h : chStarts (p ++ q) l = true) :
    chStarts p l = true := by
  induction p generalizing l with
  | nil => rfl
  | cons c cs ih =>
    cases l with
    | nil => simp [chStarts] at h
    | cons d ds =>
      simp [chStarts] at h ⊢
      exact ⟨h.1, ih h.2⟩

theorem chEnds_concat (pat l : List Char) : chEnds pat (l ++ pat) = true := by
  unfold chEnds
  rw [List.reverse_append]
  exact chStarts_append _ _

theorem pyStrip_eq (l : List Char) :
    pyStrip l = (l.dropWhile isPySpace).rdropWhile isPySpace := rfl

theorem pyStrip_cons_ws {c : Char} (h : isPySpace c = true) (l : List Char) :
    pyStrip (c :: l) = pyStrip l := by
  simp [pyStrip, List.dropWhile_cons, h]

theorem pyStrip_concat_ws {c : Char} (h : isPySpace c = true) (l : List Char) :
    pyStrip (l ++ [c]) = pyStrip l := by
  rw [pyStrip_eq, pyStrip_eq, List.dropWhile_append]
  by_cases he : (l.dropWhile isPySpace).isEmpty
  · have hnil : l.dropWhile isPySpace = [] := by
      simpa [List.isEmpty_iff] using he
    simp [he, hnil, List.dropWhile_cons, h]
  · simp only [he, if_neg]
    simp only [Bool.false_eq_true, if_false]
    exact List.rdropWhile_concat_pos _ _ _ h

theorem pyStrip_no_ws_ends {a b : Char} (ha : isPySpace a = false)
    (hb : isPySpace b = false) (l : List Char) :
    pyStrip (a :: (l ++ [b])) = a :: (l ++ [b]) := by
  rw [pyStrip_eq]
  rw [List.dropWhile_cons]
  simp only [ha, Bool.false_eq_true, if_false]
  rw [show a :: (l ++ [b]) = (a :: l) ++ [b] from rfl]
  exact List.rdropWhile_concat_neg _ _ _ (by simp [hb])

theorem pyStrip_idem (l : List Char) : pyStrip (pyStrip l) = pyStrip l := by
  rw [pyStrip_eq l, pyStrip_eq]
  have hAA : (l.dropWhile isPySpace).dropWhile isPySpace = l.dropWhile isPySpace :=
    List.dropWhile_idempotent _ _
  have hBpre : (l.dropWhile isPySpace).rdropWhile isPySpace <+: l.dropWhile isPySpace :=
    List.rdropWhile_prefix _ _
  have hdB : ((l.dropWhile isPySpace).rdropWhile isPySpace).dropWhile isPySpace
      = (l.dropWhile isPySpace).rdropWhile isPySpace := by
    cases hBc : (l.dropWhile isPySpace).rdropWhile isPySpace with
    | nil => rfl
    | cons b B2 =>
      rw [hBc] at hBpre
      rcases hBpre with ⟨t, ht⟩
      have hcons : l.dropWhile isPySpace = b :: (B2 ++ t) := by
        rw [← ht]; rfl
      have h0 : ¬ isPySpace b = true := by
        intro hb
        rw [hcons, List.dropWhile_cons] at hAA
        simp only [hb, if_true] at hAA
        have hlen := congrArg List.length hAA
        have hle : ((B2 ++ t).dropWhile isPySpace).length ≤ (B2 ++ t).length :=
          (List.dropWhile_sublist _).length_le
        simp at hlen hle
        omega
      simp [List.dropWhile_cons, h0]
  rw [hdB, List.rdropWhile_idempotent]

/-- Cleaning a payload wrapped in a json-tagged fence yields the stripped
payload. -/
theorem cleanResponse_wrapJson (P : List Char) :
    cleanResponse (wrapJson P) = pyStrip P := by
  have hform : wrapJson P
      = '`' :: (('`' :: '`' :: 'j' :: 's' :: 'o' :: 'n' :: '\n' :: (P ++ ['\n','`','`'])) ++ ['`']) := by
    simp [wrapJson]
  have hstrip : pyStrip (wrapJson P) = wrapJson P := by
    rw [hform, pyStrip_no_ws_ends (by decide) (by decide), ← hform]
  have hjstart : chStarts jsonFence (wrapJson P) = true := by
    have hsplit : wrapJson P = jsonFence ++ ('\n' :: (P ++ ['\n','`','`','`'])) := by
      simp [wrapJson, jsonFence]
    rw [hsplit]; exact chStarts_append _ _
  have hdrop7 : (wrapJson P).drop 7 = '\n' :: (P ++ ['\n','`','`','`']) := rfl
  have hnostart3 : chStarts fence3 ('\n' :: (P ++ ['\n','`','`','`'])) = false := rfl
  have hmid : '\n' :: (P ++ ['\n','`','`','`']) = ('\n' :: (P ++ ['\n'])) ++ fence3 := by
    simp [fence3]
  have hends : chEnds fence3 ('\n' :: (P ++ ['\n','`','`','`'])) = true := by
    rw [hmid]; exact chEnds_concat _ _
  have hdroplast : pyDropLast 3 ('\n' :: (P ++ ['\n','`','`','`'])) = '\n' :: (P ++ ['\n']) := by
    rw [hmid]
    unfold pyDropLast
    rw [show (((('\n' :: (P ++ ['\n'])) ++ fence3)).length - 3)
        = ('\n' :: (P ++ ['\n'])).length from by simp [fence3]]
    exact List.take_left _ _
  simp only [cleanResponse]
  rw [hstrip, if_pos hjstart, hdrop7]
  rw [show (if chStarts fence3 ('\n' :: (P ++ ['\n','`','`','`'])) = true
      then List.drop 3 ('\n' :: (P ++ ['\n','`','`','`']))
      else '\n' :: (P ++ ['\n','`','`','`'])) = '\n' :: (P ++ ['\n','`','`','`'])
    from if_neg (by simp [hnostart3])]
  rw [if_pos hends, hdroplast, pyStrip_cons_ws (by decide),
    pyStrip_concat_ws (by decide)]

/-- Cleaning an unwrapped payload that carries no fence of its own is just
stripping it. -/
theorem cleanResponse_plain {P : List Char}
    (h1 : chStarts fence3 (pyStrip P) = false)
    (h2 : chEnds fence3 (pyStrip P) = false) :
    cleanResponse P = pyStrip P := by
  have hj : chStarts jsonFence (pyStrip P) = false := by
    cases hc : chStarts jsonFence (pyStrip P) with
    | false => rfl
    | true =>
      have hsplit : jsonFence = fence3 ++ ['j','s','o','n'] := rfl
      rw [hsplit] at hc
      rw [chStarts_of_append hc] at h1
      exact absurd h1 (by simp)
  simp only [cleanResponse]
  rw [show (if chStarts jsonFence (pyStrip P) = true then List.drop 7 (pyStrip P)
      else pyStrip P) = pyStrip P from if_neg (by simp [hj])]
  rw [show (if chStarts fence3 (pyStrip P) = true then List.drop 3 (pyStrip P)
      else pyStrip P) = pyStrip P from if_neg (by simp [h1])]
  rw [if_neg (by simp [h2]), pyStrip_idem]

/-! ### Lemmas about acquisition -/

/-- A successful download returns the scratch path, which then exists. -/
theorem downloadAudio_ok {dl : List String → (Except String Unit) × List String}
    {vid : String} {fs : List String} {p : String} {fs1 : List String}
    (h : downloadAudio dl vid fs = (.ok p, fs1)) :
    p = audioPath vid ∧ audioPath vid ∈ fs1 := by
  unfold downloadAudio at h
  cases hdl : dl fs with
  | mk r fs2 =>
    rw [hdl] at h
    cases r with
    | error e => simp at h
    | ok u =>
      by_cases hc : audioPath vid ∈ fs2
      · simp [hc] at h
        exact ⟨h.1.symm, h.2 ▸ hc⟩
      · simp [hc] at h

end SmartYT

/-- C6: every 11-character token of `[A-Za-z0-9_-]` is extracted identically
from a full watch URL, a short URL, and the bare token; and any input
matching no accepted pattern is rejected (the raised `ValueError` is the
`none` result). -/
theorem SmartYT.c6_extract_video_id (t s : List Char) (hlen : t.length = 11)
    (hid : ∀ c ∈ t, idChar c = true) (hs : ¬ SmartYT.acceptedPattern s) :
    SmartYT.extract_video_id (SmartYT.watchPre ++ (SmartYT.watchLit ++ t)) = some t
    ∧ SmartYT.extract_video_id (SmartYT.httpsPre ++ (SmartYT.shortLit ++ t)) = some t
    ∧ SmartYT.extract_video_id t = some t
    ∧ SmartYT.extract_video_id s = none := by
  have hlen' : 11 ≤ t.length := le_of_eq hlen.symm
  have htake : t.take 11 = t := by
    rw [← hlen]; exact List.take_length t
  refine ⟨?_, ?_, ?_, ?_⟩
  · have hpre : ∀ c ∈ watchPre, ¬ c = 'y' := by decide
    have : reSearch (watchPre ++ (watchLit ++ t)) = some t := by
      rw [reSearch_append_no_y hpre]
      have := reSearch_watch (r := []) hlen' hid
      rwa [List.append_nil, htake] at this
    simp [extract_video_id, this]
  · have hpre : ∀ c ∈ httpsPre, ¬ c = 'y' := by decide
    have : reSearch (httpsPre ++ (shortLit ++ t)) = some t := by
      rw [reSearch_append_no_y hpre]
      have := reSearch_short (r := []) hlen' hid
      rwa [List.append_nil, htake] at this
    simp [extract_video_id, this]
  · have hbare : bareTokenMatch t = some t := by
      have haux := takeIdChars_append (r := ([] : List Char)) hid
      rw [hlen, List.append_nil] at haux
      simp [bareTokenMatch, haux]
    simp [extract_video_id, reSearch_none_of_all_idChar hid, hbare]
  · rcases not_or.mp hs with ⟨h1, h2⟩
    have hre : reSearch s = none := Option.not_isSome_iff_eq_none.mp h1
    have hbm : bareTokenMatch s = none := Option.not_isSome_iff_eq_none.mp h2
    simp [extract_video_id, hre, hbm]

/-- Witness for C6 at the token dQw4w9WgXcQ and the rejected input `notavideo`. -/
theorem SmartYT.c6_extract_video_id_witness :
    SmartYT.extract_video_id
        (SmartYT.watchPre ++ (SmartYT.watchLit ++ ['d','Q','w','4','w','9','W','g','X','c','Q']))
      = some ['d','Q','w','4','w','9','W','g','X','c','Q']
    ∧ SmartYT.extract_video_id ['n','o','t','a','v','i','d','e','o'] = none :=
  ⟨(SmartYT.c6_extract_video_id ['d','Q','w','4','w','9','W','g','X','c','Q']
      ['n','o','t','a','v','i','d','e','o'] (by decide) (by decide) (by decide)).1,
   (SmartYT.c6_extract_video_id ['d','Q','w','4','w','9','W','g','X','c','Q']
      ['n','o','t','a','v','i','d','e','o'] (by decide) (by decide) (by decide)).2.2.2⟩

/-- C10: the extractor is substring search with a fixed 11-character capture:
any text before the URL marker that cannot start a match is skipped, an
overlong run of identifier characters after the marker is silently truncated
to its first 11, trailing text is ignored, and with arbitrary preceding text
extraction still succeeds rather than rejecting. -/
theorem SmartYT.c10_truncating_search (pre pre2 t suf : List Char)
    (hlen : 11 ≤ t.length) (hid : ∀ c ∈ t, idChar c = true)
    (hpre : ∀ c ∈ pre, ¬ c = 'y') :
    SmartYT.extract_video_id (pre ++ (SmartYT.watchLit ++ (t ++ suf))) = some (t.take 11)
    ∧ SmartYT.extract_video_id (pre ++ (SmartYT.shortLit ++ (t ++ suf))) = some (t.take 11)
    ∧ (SmartYT.extract_video_id (pre2 ++ (SmartYT.watchLit ++ (t ++ suf)))).isSome
    ∧ (SmartYT.extract_video_id (pre2 ++ (SmartYT.shortLit ++ (t ++ suf)))).isSome := by
  refine ⟨?_, ?_, ?_, ?_⟩
  · have : reSearch (pre ++ (watchLit ++ (t ++ suf))) = some (t.take 11) := by
      rw [reSearch_append_no_y hpre, reSearch_watch hlen hid]
    simp [extract_video_id, this]
  · have : reSearch (pre ++ (shortLit ++ (t ++ suf))) = some (t.take 11) := by
      rw [reSearch_append_no_y hpre, reSearch_short hlen hid]
    simp [extract_video_id, this]
  · have hbase : (reSearch (watchLit ++ (t ++ suf))).isSome := by
      simp [reSearch_watch hlen hid]
    have := reSearch_append_isSome hbase pre2
    cases hre : reSearch (pre2 ++ (watchLit ++ (t ++ suf))) with
    | some g => simp [extract_video_id, hre]
    | none => rw [hre] at this; simp at this
  · have hbase : (reSearch (shortLit ++ (t ++ suf))).isSome := by
      simp [reSearch_short hlen hid]
    have := reSearch_append_isSome hbase pre2
    cases hre : reSearch (pre2 ++ (shortLit ++ (t ++ suf))) with
    | some g => simp [extract_video_id, hre]
    | none => rw [hre] at this; simp at this

/-- Witness for C10: a 14-character run after `v=` is truncated to 11, with
text on both sides; a preceding `y` still leaves the extraction successful. -/
theorem SmartYT.c10_truncating_search_witness :
    SmartYT.extract_video_id
        (['s','e','e',' '] ++ (SmartYT.watchLit ++ (['a','b','c','d','e','f','g','h','i','j','k','l','m','n'] ++ [' ','n','o','w'])))
      = some ['a','b','c','d','e','f','g','h','i','j','k']
    ∧ (SmartYT.extract_video_id
        (['y','y'] ++ (SmartYT.shortLit ++ (['a','b','c','d','e','f','g','h','i','j','k','l','m','n'] ++ [' ','n','o','w'])))).isSome :=
  ⟨(SmartYT.c10_truncating_search ['s','e','e',' '] ['y','y']
      ['a','b','c','d','e','f','g','h','i','j','k','l','m','n'] [' ','n','o','w']
      (by decide) (by decide) (by decide)).1,
   (SmartYT.c10_truncating_search ['s','e','e',' '] ['y','y']
      ['a','b','c','d','e','f','g','h','i','j','k','l','m','n'] [' ','n','o','w']
      (by decide) (by decide) (by decide)).2.2.2⟩

/-- C8: the timestamp formatter truncates to an integer, splits into
hours, minutes and seconds, zero-pads minutes and seconds, shows hours only
when positive, and in particular maps 0 to "0:00", 65 to "1:05" and 3661 to
"1:01:01".  Note that when no hours are shown the minute field is
`s % 3600 / 60`, which coincides with `s / 60` there. -/
theorem SmartYT.c8_format_timestamp :
    (∀ s : Nat, SmartYT.format_timestamp s = SmartYT.specTimestamp s)
    ∧ SmartYT.format_timestamp 0 = "0:00"
    ∧ SmartYT.format_timestamp 65 = "1:05"
    ∧ SmartYT.format_timestamp 3661 = "1:01:01" := by
  refine ⟨fun s => rfl, by decide, by decide, by decide⟩

/-- C4: translation preserves segment count and order, preserves `start`
and `duration` pointwise, and sets `original` to the original carried by
the input segment when present and to the incoming text otherwise, for
every oracle behaviour. -/
theorem SmartYT.c4_translate_frame (ok : Nat → Bool)
    (tr : String → String → String) (lang : String)
    (transcript : List SmartYT.TSeg) :
    (SmartYT.translate_transcript ok tr lang transcript).length = transcript.length
    ∧ ∀ i, i < transcript.length →
      ∃ s out, transcript[i]? = some s
        ∧ (SmartYT.translate_transcript ok tr lang transcript)[i]? = some out
        ∧ out.start = s.start ∧ out.duration = s.duration
        ∧ (∀ o, s.original = some o → out.original = o)
        ∧ (s.original = none → out.original = s.text) := by
  refine ⟨translateGo_length ok tr lang transcript 0, fun i hi => ?_⟩
  have hs : transcript[i]? = some (transcript.get ⟨i, hi⟩) := by
    simp [List.getElem?_eq_getElem hi]
  have h := translateGo_getElem ok tr lang transcript 0 i hi
  rw [hs] at h
  refine ⟨transcript.get ⟨i, hi⟩,
    mkOut tr lang (ok (0 + i / 15)) (transcript.get ⟨i, hi⟩), hs,
    by simpa using h, rfl, rfl, ?_, ?_⟩
  · intro o ho
    have ho2 : transcript[i].original = some o := ho
    simp [mkOut, ho2]
  · intro ho
    have ho2 : transcript[i].original = none := ho
    simp [mkOut, ho2]

/-- Witness for C4 on a two-segment transcript, one segment already
carrying an original. -/
theorem SmartYT.c4_translate_frame_witness :
    (SmartYT.translate_transcript (fun _ => true) (fun _ s => s ++ "!") "vi"
        [⟨"a", 0, 1, none⟩, ⟨"b", 1, 2, some "z"⟩]).length = 2
    ∧ ∃ s out,
      ([⟨"a", 0, 1, none⟩, ⟨"b", 1, 2, some "z"⟩] : List SmartYT.TSeg)[1]? = some s
      ∧ (SmartYT.translate_transcript (fun _ => true) (fun _ s => s ++ "!") "vi"
          [⟨"a", 0, 1, none⟩, ⟨"b", 1, 2, some "z"⟩])[1]? = some out
      ∧ out.start = s.start ∧ out.duration = s.duration
      ∧ (∀ o, s.original = some o → out.original = o)
      ∧ (s.original = none → out.original = s.text) := by
  have h := SmartYT.c4_translate_frame (fun _ => true) (fun _ s => s ++ "!") "vi"
    [⟨"a", 0, 1, none⟩, ⟨"b", 1, 2, some "z"⟩]
  exact ⟨h.1, h.2 1 (by decide)⟩

/-- C1 counterexample: with an oracle whose first bulk call fails and whose
second succeeds, the code emits the batch untranslated — no retry happens —
while the claimed retrying behaviour (the spec model) would emit the
translation obtained on the second attempt. -/
theorem SmartYT.c1_retry_counterexample :
    (fun k => decide (1 ≤ k)) 0 = false ∧ (fun k => decide (1 ≤ k)) 1 = true
    ∧ SmartYT.translate_transcript (fun k => decide (1 ≤ k)) (fun _ s => s ++ "!")
        "vi" [⟨"hello", 0, 1, none⟩] = [⟨"hello", 0, 1, "hello"⟩]
    ∧ SmartYT.specRetryTranslate (fun k => decide (1 ≤ k)) (fun _ s => s ++ "!")
        "vi" [⟨"hello", 0, 1, none⟩] = [⟨"hello!", 0, 1, "hello"⟩] := by
  refine ⟨rfl, rfl, ?_, ?_⟩
  · simp [translate_transcript, translateGo, translate_batch, rebuildSeg]
  · simp [specRetryTranslate, specRetryGo, specRetryBatch, rebuildSeg]

/-- C1 amended: each batch makes exactly one bulk translation call; when
that call fails the segments of the batch are emitted with text equal to
the input text, and no segment is dropped and the transcript is never
aborted.  The 3-attempt retry with backoff and client recreation exists
only in `translate_text`, which `translate_transcript` does not use. -/
theorem SmartYT.c1_batch_passthrough (ok : Nat → Bool)
    (tr : String → String → String) (lang : String)
    (transcript : List SmartYT.TSeg) :
    (SmartYT.translate_transcript ok tr lang transcript).length = transcript.length
    ∧ ∀ i, i < transcript.length → ok (i / 15) = false →
      ∃ s out, transcript[i]? = some s
        ∧ (SmartYT.translate_transcript ok tr lang transcript)[i]? = some out
        ∧ out.text = s.text := by
  refine ⟨translateGo_length ok tr lang transcript 0, fun i hi hfail => ?_⟩
  have hs : transcript[i]? = some (transcript.get ⟨i, hi⟩) := by
    simp [List.getElem?_eq_getElem hi]
  have h := translateGo_getElem ok tr lang transcript 0 i hi
  rw [hs] at h
  refine ⟨transcript.get ⟨i, hi⟩,
    mkOut tr lang (ok (0 + i / 15)) (transcript.get ⟨i, hi⟩), hs,
    by simpa using h, ?_⟩
  simp [mkOut, Nat.zero_add, hfail]

/-- Witness for the amended C1: a single batch whose only call fails is
passed through. -/
theorem SmartYT.c1_batch_passthrough_witness :
    (SmartYT.translate_transcript (fun _ => false) (fun _ s => s ++ "!") "vi"
        [⟨"hi", 0, 1, none⟩]).length = 1
    ∧ ∃ s out, ([⟨"hi", 0, 1, none⟩] : List SmartYT.TSeg)[0]? = some s
      ∧ (SmartYT.translate_transcript (fun _ => false) (fun _ s => s ++ "!") "vi"
          [⟨"hi", 0, 1, none⟩])[0]? = some out
      ∧ out.text = s.text := by
  have h := SmartYT.c1_batch_passthrough (fun _ => false) (fun _ s => s ++ "!")
    "vi" [⟨"hi", 0, 1, none⟩]
  exact ⟨h.1, h.2 0 (by decide) (by decide)⟩

/-- C7 counterexample: the code xx is not in the supported table, yet the
translation call proceeds — the output text visibly comes from the
translation capability invoked with the unrecognised code. -/
theorem SmartYT.c7_unvalidated_counterexample :
    SmartYT.validate_language "xx" = false
    ∧ SmartYT.translate_transcript (fun _ => true) (fun l s => s ++ "@" ++ l)
        "xx" [⟨"hi", 0, 1, none⟩] = [⟨"hi@xx", 0, 1, "hi"⟩] := by
  refine ⟨by decide, ?_⟩
  simp [translate_transcript, translateGo, translate_batch, rebuildSeg]

/-- C7 amended: `validate_language` does report membership of the
lowercased code in the fixed table, but `translate_transcript` never
consults it — for an unsupported code the translation capability is still
invoked and the transcript fully processed, exactly as for a supported
one. -/
theorem SmartYT.c7_language_not_enforced :
    (∀ c, SmartYT.validate_language c = true
        ↔ SmartYT.pyLower c ∈ SmartYT.LANGUAGES.map Prod.fst)
    ∧ ∀ (ok : Nat → Bool) (tr : String → String → String) (lang : String)
        (transcript : List SmartYT.TSeg),
        SmartYT.validate_language lang = false →
        (SmartYT.translate_transcript ok tr lang transcript).length = transcript.length
        ∧ ∀ i, i < transcript.length → ok (i / 15) = true →
          ∃ s out, transcript[i]? = some s
            ∧ (SmartYT.translate_transcript ok tr lang transcript)[i]? = some out
            ∧ out.text = tr lang s.text := by
  refine ⟨validate_language_iff, fun ok tr lang transcript _ =>
    ⟨translateGo_length ok tr lang transcript 0, fun i hi hok => ?_⟩⟩
  have hs : transcript[i]? = some (transcript.get ⟨i, hi⟩) := by
    simp [List.getElem?_eq_getElem hi]
  have h := translateGo_getElem ok tr lang transcript 0 i hi
  rw [hs] at h
  refine ⟨transcript.get ⟨i, hi⟩,
    mkOut tr lang (ok (0 + i / 15)) (transcript.get ⟨i, hi⟩), hs,
    by simpa using h, ?_⟩
  simp [mkOut, Nat.zero_add, hok]

/-- Witness for the amended C7: the unsupported code xx is translated
anyway. -/
theorem SmartYT.c7_language_not_enforced_witness :
    (SmartYT.validate_language "VI" = true
      ↔ SmartYT.pyLower "VI" ∈ SmartYT.LANGUAGES.map Prod.fst)
    ∧ ((SmartYT.translate_transcript (fun _ => true) (fun l s => s ++ "@" ++ l)
          "xx" [⟨"hi", 0, 1, none⟩]).length = 1
      ∧ ∀ i, i < ([⟨"hi", 0, 1, none⟩] : List SmartYT.TSeg).length →
          (fun _ : Nat => true) (i / 15) = true →
          ∃ s out, ([⟨"hi", 0, 1, none⟩] : List SmartYT.TSeg)[i]? = some s
            ∧ (SmartYT.translate_transcript (fun _ => true)
                (fun l s => s ++ "@" ++ l) "xx" [⟨"hi", 0, 1, none⟩])[i]? = some out
            ∧ out.text = (fun l s => s ++ "@" ++ l) "xx" s.text) :=
  ⟨SmartYT.c7_language_not_enforced.1 "VI",
   SmartYT.c7_language_not_enforced.2 (fun _ => true) (fun l s => s ++ "@" ++ l)
     "xx" [⟨"hi", 0, 1, none⟩] (by decide)⟩

/-- C9 counterexample: with the fence tag `javascript` the stripping leaves
the tag text in place, parsing fails, and analyze returns the fallback
instead of the parsed payload, so wrapped and unwrapped responses disagree. -/
theorem SmartYT.c9_nonjson_tag_counterexample :
    SmartYT.generate_analysis
        ("```javascript\n\x7b\"chapters\": [], \"key_notes\": []\x7d\n```".data)
      = .ok SmartYT.fallbackAnalysis
    ∧ SmartYT.generate_analysis ("\x7b\"chapters\": [], \"key_notes\": []\x7d".data)
      = .ok (.obj [("chapters", .arr []), ("key_notes", .arr [])])
    ∧ SmartYT.generate_analysis
        ("```javascript\n\x7b\"chapters\": [], \"key_notes\": []\x7d\n```".data)
      ≠ SmartYT.generate_analysis ("\x7b\"chapters\": [], \"key_notes\": []\x7d".data) := by
  refine ⟨rfl, rfl, ?_⟩
  intro h
  rw [show SmartYT.generate_analysis
        ("```javascript\n\x7b\"chapters\": [], \"key_notes\": []\x7d\n```".data)
      = .ok SmartYT.fallbackAnalysis from rfl,
    show SmartYT.generate_analysis ("\x7b\"chapters\": [], \"key_notes\": []\x7d".data)
      = .ok (.obj [("chapters", .arr []), ("key_notes", .arr [])]) from rfl] at h
  simp [SmartYT.fallbackAnalysis] at h

/-- C9 amended: for the fence tag `json` — the only tag the code strips —
wrapping a payload that does not itself start or end with a fence in a
leading tagged fence and a trailing fence leaves the analysis result
unchanged. -/
theorem SmartYT.c9_json_fence_invariance (P : List Char)
    (h1 : SmartYT.chStarts SmartYT.fence3 (SmartYT.pyStrip P) = false)
    (h2 : SmartYT.chEnds SmartYT.fence3 (SmartYT.pyStrip P) = false) :
    SmartYT.generate_analysis (SmartYT.wrapJson P) = SmartYT.generate_analysis P := by
  unfold generate_analysis
  rw [cleanResponse_wrapJson, cleanResponse_plain h1 h2]

/-- Witness for the amended C9 at a concrete two-key payload. -/
theorem SmartYT.c9_json_fence_invariance_witness :
    SmartYT.generate_analysis
        (SmartYT.wrapJson ("\x7b\"chapters\": [], \"key_notes\": []\x7d".data))
      = SmartYT.generate_analysis ("\x7b\"chapters\": [], \"key_notes\": []\x7d".data) :=
  SmartYT.c9_json_fence_invariance ("\x7b\"chapters\": [], \"key_notes\": []\x7d".data)
    (by decide) (by decide)

/-- C2 counterexample: the response is valid JSON but lacks both keys; the
code raises ValueError instead of returning the fallback payload. -/
theorem SmartYT.c2_missing_keys_counterexample :
    SmartYT.generate_analysis ['{','}'] = .error "Invalid analysis structure"
    ∧ SmartYT.generate_analysis ['{','}'] ≠ .ok SmartYT.fallbackAnalysis := by
  refine ⟨rfl, ?_⟩
  intro h
  rw [show SmartYT.generate_analysis ['{','}']
      = .error "Invalid analysis structure" from rfl] at h
  exact absurd h (by simp)

/-- C2 amended: when the cleaned response fails to parse as JSON, analyze
returns the fixed fallback payload; when it parses but the chapters or
key_notes membership test does not succeed, an error propagates to the
caller (the ValueError or TypeError is re-raised, not absorbed). -/
theorem SmartYT.c2_malformed (t : List Char) :
    (SmartYT.loads (SmartYT.cleanResponse t) = none →
      SmartYT.generate_analysis t = .ok SmartYT.fallbackAnalysis)
    ∧ ∀ j, SmartYT.loads (SmartYT.cleanResponse t) = some j →
        (SmartYT.pyIn "chapters" j ≠ .ok true ∨ SmartYT.pyIn "key_notes" j ≠ .ok true) →
        ∃ e, SmartYT.generate_analysis t = .error e := by
  constructor
  · intro h
    simp [generate_analysis, h]
  · intro j hj hbad
    cases hc : pyIn "chapters" j with
    | error e => exact ⟨e, by simp [generate_analysis, hj, hc]⟩
    | ok c1 =>
      cases c1 with
      | false =>
        exact ⟨"Invalid analysis structure", by simp [generate_analysis, hj, hc]⟩
      | true =>
        cases hk : pyIn "key_notes" j with
        | error e => exact ⟨e, by simp [generate_analysis, hj, hc, hk]⟩
        | ok c2 =>
          cases c2 with
          | false =>
            exact ⟨"Invalid analysis structure",
              by simp [generate_analysis, hj, hc, hk]⟩
          | true =>
            rcases hbad with hb | hb
            · exact absurd hc hb
            · exact absurd hk hb

/-- Witness for the amended C2: unparsable text falls back; an empty JSON
object makes analyze raise. -/
theorem SmartYT.c2_malformed_witness :
    SmartYT.generate_analysis ("hello".data) = .ok SmartYT.fallbackAnalysis
    ∧ ∃ e, SmartYT.generate_analysis ['{','}'] = .error e :=
  ⟨(SmartYT.c2_malformed ("hello".data)).1 rfl,
   (SmartYT.c2_malformed ['{','}']).2 (.obj []) rfl
     (Or.inl (by simp [show SmartYT.pyIn "chapters" (SmartYT.Json.obj [])
        = Except.ok false from rfl]))⟩

/-- C3: when the official-path fetch raises, acquire runs the offline path
exactly once and never raises — its result is exactly the wrap of the
single Whisper attempt, success or failure — and a failed result carries an
empty segment list and a populated error message. -/
theorem SmartYT.c3_fallback_once (official : Except String (List SmartYT.Seg))
    (dl : List String → (Except String Unit) × List String)
    (trans : Except String (List SmartYT.WSeg)) (vid : String) (fs : List String)
    (e : String) (hofficial : official = .error e) :
    (∀ t fs2, SmartYT.transcribeWithWhisper dl trans vid fs = (.ok t, fs2) →
      SmartYT.get_transcript official dl trans vid fs
        = (⟨t, "whisper", true, none⟩, fs2))
    ∧ (∀ m fs2, SmartYT.transcribeWithWhisper dl trans vid fs = (.error m, fs2) →
      SmartYT.get_transcript official dl trans vid fs
        = (⟨[], "error", false, some m⟩, fs2))
    ∧ ((SmartYT.get_transcript official dl trans vid fs).1.success = false →
      (SmartYT.get_transcript official dl trans vid fs).1.transcript = []
      ∧ (SmartYT.get_transcript official dl trans vid fs).1.error.isSome = true) := by
  subst hofficial
  refine ⟨fun t fs2 ht => ?_, fun m fs2 hm => ?_, fun hfail => ?_⟩
  · simp [get_transcript, ht]
  · simp [get_transcript, hm]
  · cases hw : transcribeWithWhisper dl trans vid fs with
    | mk r fs2 =>
      cases r with
      | ok t =>
        rw [show get_transcript (.error e) dl trans vid fs
            = (⟨t, "whisper", true, none⟩, fs2) from by simp [get_transcript, hw]] at hfail
        simp at hfail
      | error m =>
        rw [show get_transcript (.error e) dl trans vid fs
            = (⟨[], "error", false, some m⟩, fs2) from by simp [get_transcript, hw]]
        simp

/-- Witness for C3: official fetch raises, the download succeeds, Whisper
raises, and acquire still returns a result with empty segments and the
error message. -/
theorem SmartYT.c3_fallback_once_witness :
    SmartYT.get_transcript (.error "boom")
        (fun fs => (.ok (), SmartYT.audioPath "abc" :: fs))
        (.error "whisper down") "abc" []
      = (⟨[], "error", false, some "whisper down"⟩, []) :=
  (SmartYT.c3_fallback_once (.error "boom")
      (fun fs => (.ok (), SmartYT.audioPath "abc" :: fs))
      (.error "whisper down") "abc" [] "boom" rfl).2.1
    "whisper down" [] rfl

/-- C5: whenever the offline fallback runs and the audio download succeeds,
the scratch audio file no longer exists in the file system returned by
acquire, whether the transcription succeeded or raised — the try/finally
removes it on both exits. -/
theorem SmartYT.c5_scratch_cleanup (official : Except String (List SmartYT.Seg))
    (dl : List String → (Except String Unit) × List String)
    (trans : Except String (List SmartYT.WSeg)) (vid : String) (fs : List String)
    (e : String) (p : String) (fs1 : List String)
    (hofficial : official = .error e)
    (hdl : SmartYT.downloadAudio dl vid fs = (.ok p, fs1)) :
    SmartYT.audioPath vid ∉ (SmartYT.get_transcript official dl trans vid fs).2 := by
  subst hofficial
  obtain ⟨hp, hc⟩ := downloadAudio_ok hdl
  subst hp
  have hfs2 : (transcribeWithWhisper dl trans vid fs).2
      = fs1.filter (fun q => q != audioPath vid) := by
    unfold transcribeWithWhisper
    rw [hdl]
    simp [hc]
  have hnot : audioPath vid ∉ fs1.filter (fun q => q != audioPath vid) := by
    intro hmem
    rw [List.mem_filter] at hmem
    simp at hmem
  cases hw : transcribeWithWhisper dl trans vid fs with
  | mk r fs2 =>
    have hfs2eq : fs2 = fs1.filter (fun q => q != audioPath vid) := by
      rw [← hfs2, hw]
    cases r with
    | ok t =>
      have hsnd : (get_transcript (.error e) dl trans vid fs).2 = fs2 := by
        simp [get_transcript, hw]
      rw [hsnd, hfs2eq]; exact hnot
    | error m =>
      have hsnd : (get_transcript (.error e) dl trans vid fs).2 = fs2 := by
        simp [get_transcript, hw]
      rw [hsnd, hfs2eq]; exact hnot

/-- Witness for C5 with a fault-injected transcription that raises after a
successful download: the scratch file is gone from the returned file
system. -/
theorem SmartYT.c5_scratch_cleanup_witness :
    SmartYT.audioPath "abc" ∉
      (SmartYT.get_transcript (.error "boom")
        (fun fs => (.ok (), SmartYT.audioPath "abc" :: fs))
        (.error "whisper down") "abc" []).2 :=
  SmartYT.c5_scratch_cleanup (.error "boom")
    (fun fs => (.ok (), SmartYT.audioPath "abc" :: fs))
    (.error "whisper down") "abc" [] "boom" (SmartYT.audioPath "abc")
    [SmartYT.audioPath "abc"] rfl rfl
